import Mathlib

/-!
Verification development for the PyMVPA MRI dataset IO module
(`mvpa2/datasets/mri.py`).

The module converts MRI volumes between an image representation
(NiBabel-style images: an N-dimensional data array plus a header) and a
flattened samples-by-features dataset, and back.  The shallow embedding
below models N-dimensional arrays as a shape together with an index
function (C-order reshapes are index re-arithmetic), headers as
association lists of fields, and Python-level failures as `Except` errors.
In-place mutation of arguments (NumPy `arr.shape = ...` assignment,
`header.set_data_shape(...)`) is made explicit by returning the updated
source objects alongside the results.
-/

namespace PyMVPA

/-- Python-level exceptions that the modelled code can raise. -/
inductive PyErr where
  | typeError
  | valueError
  | attributeError
  | indexError
  | keyError
  | fileNotFound
  deriving Repr, DecidableEq

/-- Non-fatal warnings emitted by the module (`mvpa2.base.warning`). -/
inductive Warn where
  | afniSqueeze
  | sclNan
  deriving Repr, DecidableEq

/-- Field values stored in an image header (numbers, small arrays, text,
and the IEEE not-a-number that triggers the `scl_` repair). -/
inductive Val where
  | i (n : Int)
  | q (x : Rat)
  | arr (l : List Rat)
  | s (t : String)
  | nan
  deriving Repr, DecidableEq

/-- Textual representation of a field value, modelling Python `str(...)`;
`str` of a not-a-number float is the text `"nan"`. -/
def Val.text : Val → String
  | .i n => toString n
  | .q x => toString x
  | .arr l => toString (l.map toString)
  | .s t => t
  | .nan => "nan"

/-- First-match lookup in an association list keyed by strings, modelling
Python dict / mapping-style `kv[k]` access. -/
def lookupKey {β : Type} : List (String × β) → String → Option β
  | [], _ => none
  | (k', v) :: rest, k => if k' = k then some v else lookupKey rest k

/-- Replace the binding of `k` in place (first occurrence), or append a new
binding, modelling Python dict assignment `kv[k] = v`. -/
def setKey {β : Type} : List (String × β) → String → β → List (String × β)
  | [], k, v => [(k, v)]
  | (k', v') :: rest, k, v =>
      if k' = k then (k, v) :: rest else (k', v') :: setKey rest k v

theorem lookupKey_setKey_self {β : Type} (l : List (String × β)) (k : String) (v : β) :
    lookupKey (setKey l k v) k = some v := by
  induction l with
  | nil => simp [setKey, lookupKey]
  | cons p rest ih =>
      obtain ⟨k', v'⟩ := p
      by_cases h : k' = k
      · simp [setKey, h, lookupKey]
      · simp [setKey, h, lookupKey, ih]

theorem lookupKey_setKey_ne {β : Type} (l : List (String × β)) (k k' : String) (v : β)
    (h : k' ≠ k) : lookupKey (setKey l k v) k' = lookupKey l k' := by
  induction l with
  | nil => simp [setKey, lookupKey, Ne.symm h]
  | cons p rest ih =>
      obtain ⟨k0, v0⟩ := p
      by_cases h0 : k0 = k
      · have hk0 : k0 ≠ k' := by rw [h0]; exact Ne.symm h
        simp [setKey, h0, lookupKey, Ne.symm h, hk0]
      · by_cases h1 : k0 = k'
        · simp [setKey, h0, lookupKey, h1, h]
        · simp [setKey, h0, lookupKey, h1, h, ih]

theorem keys_setKey_of_isSome {β : Type} (l : List (String × β)) (k : String) (v : β)
    (h : (lookupKey l k).isSome) :
    (setKey l k v).map Prod.fst = l.map Prod.fst := by
  induction l with
  | nil => simp [lookupKey] at h
  | cons p rest ih =>
      obtain ⟨k0, v0⟩ := p
      by_cases h0 : k0 = k
      · simp [setKey, h0]
      · simp [lookupKey, h0] at h
        simp [setKey, h0, ih h]

theorem keys_setKey_of_none {β : Type} (l : List (String × β)) (k : String) (v : β)
    (h : lookupKey l k = none) :
    (setKey l k v).map Prod.fst = l.map Prod.fst ++ [k] := by
  induction l with
  | nil => simp [setKey]
  | cons p rest ih =>
      obtain ⟨k0, v0⟩ := p
      by_cases h0 : k0 = k
      · simp [lookupKey, h0] at h
      · simp [lookupKey, h0] at h
        simp [setKey, h0, ih h]

theorem lookupKey_of_not_key {β : Type} (l : List (String × β)) (k : String)
    (h : ∀ p ∈ l, p.1 ≠ k) : lookupKey l k = none := by
  induction l with
  | nil => rfl
  | cons p rest ih =>
      obtain ⟨k0, v0⟩ := p
      have hk0 : k0 ≠ k := h (k0, v0) (by simp)
      simp [lookupKey, hk0]
      exact ih fun p hp => h p (by simp [hp])

/-! ### N-dimensional arrays

An array is a shape together with an index function; indices are lists of
coordinates.  C-order reshaping, axis rolling and flattening are index
re-arithmetic on this representation. -/

/-- An N-dimensional numeric array: a shape and an index function.  Only
indices valid for the shape are meaningful. -/
structure NDArray (α : Type) where
  shape : List Nat
  get : List Nat → α

/-- Whether `idx` is a coordinate vector valid for `shape`. -/
def validIdx : List Nat → List Nat → Bool
  | [], [] => true
  | n :: ns, i :: is => decide (i < n) && validIdx ns is
  | _, _ => false

/-- Element-wise equality of two arrays: equal shapes and equal entries at
every valid index. -/
def NDArray.elemEq {α : Type} (a b : NDArray α) : Prop :=
  a.shape = b.shape ∧ ∀ idx, validIdx a.shape idx = true → a.get idx = b.get idx

/-- C-order linearisation of a coordinate vector for a given shape. -/
def flattenIdx : List Nat → List Nat → Nat
  | _, [] => 0
  | [], _ => 0
  | _ :: ns, i :: is => i * ns.prod + flattenIdx ns is

/-- Inverse of `flattenIdx`: recover the coordinate vector of a C-order
linear position. -/
def unflattenIdx : List Nat → Nat → List Nat
  | [], _ => []
  | _ :: ns, j => (j / ns.prod) :: unflattenIdx ns (j % ns.prod)

theorem flattenIdx_lt (ns is : List Nat) (h : validIdx ns is = true) :
    flattenIdx ns is < ns.prod := by
  induction ns generalizing is with
  | nil =>
      cases is with
      | nil => simp [flattenIdx]
      | cons i is => simp [validIdx] at h
  | cons n ns ih =>
      cases is with
      | nil => simp [validIdx] at h
      | cons i is =>
          simp only [validIdx, Bool.and_eq_true, decide_eq_true_eq] at h
          obtain ⟨hi, hv⟩ := h
          have hr := ih is hv
          calc flattenIdx (n :: ns) (i :: is) = i * ns.prod + flattenIdx ns is := rfl
            _ < i * ns.prod + ns.prod := by omega
            _ = (i + 1) * ns.prod := by ring
            _ ≤ n * ns.prod := Nat.mul_le_mul_right _ (by omega)
            _ ≤ (n :: ns).prod := by simp [List.prod_cons]

theorem unflattenIdx_flattenIdx (ns is : List Nat) (h : validIdx ns is = true) :
    unflattenIdx ns (flattenIdx ns is) = is := by
  induction ns generalizing is with
  | nil =>
      cases is with
      | nil => rfl
      | cons i is => simp [validIdx] at h
  | cons n ns ih =>
      cases is with
      | nil => simp [validIdx] at h
      | cons i is =>
          simp only [validIdx, Bool.and_eq_true, decide_eq_true_eq] at h
          obtain ⟨hi, hv⟩ := h
          have hr := flattenIdx_lt ns is hv
          have hp : 0 < ns.prod := lt_of_le_of_lt (Nat.zero_le _) hr
          have hdiv : (i * ns.prod + flattenIdx ns is) / ns.prod = i := by
            rw [Nat.mul_comm i ns.prod, Nat.mul_add_div hp]
            simp [Nat.div_eq_of_lt hr]
          have hmod : (i * ns.prod + flattenIdx ns is) % ns.prod = flattenIdx ns is := by
            rw [Nat.mul_comm i ns.prod, Nat.mul_add_mod]
            exact Nat.mod_eq_of_lt hr
          simp only [flattenIdx, unflattenIdx, hdiv, hmod, ih is hv]

/-- C-order reshape of an array to a new shape, modelling both NumPy
`np.reshape` and in-place `arr.shape = new_shape` assignment (both relabel
the same C-order element sequence). -/
def reshapeArr {α : Type} (ns : List Nat) (a : NDArray α) : NDArray α :=
  ⟨ns, fun idx => a.get (unflattenIdx a.shape (flattenIdx ns idx))⟩

/-- Move the last element of a list to the front (`np.rollaxis(arr, -1)`
applied to a 4-tuple of axes); other lengths are untouched, as the source
only rolls 4-dimensional arrays. -/
def lastToFront {α : Type} : List α → List α
  | [a, b, c, d] => [d, a, b, c]
  | l => l

/-- Move the first element of a list to the back (`np.rollaxis(arr, 0, 4)`
applied to a 4-tuple of axes); other lengths are untouched. -/
def frontToLast {α : Type} : List α → List α
  | [a, b, c, d] => [b, c, d, a]
  | l => l

theorem frontToLast_lastToFront {α : Type} (l : List α) :
    frontToLast (lastToFront l) = l := by
  match l with
  | [] => rfl
  | [a] => rfl
  | [a, b] => rfl
  | [a, b, c] => rfl
  | [a, b, c, d] => rfl
  | a :: b :: c :: d :: e :: rest => rfl

theorem lastToFront_frontToLast {α : Type} (l : List α) :
    lastToFront (frontToLast l) = l := by
  match l with
  | [] => rfl
  | [a] => rfl
  | [a, b] => rfl
  | [a, b, c] => rfl
  | [a, b, c, d] => rfl
  | a :: b :: c :: d :: e :: rest => rfl

theorem length_lastToFront {α : Type} (l : List α) :
    (lastToFront l).length = l.length := by
  match l with
  | [] => rfl
  | [a] => rfl
  | [a, b] => rfl
  | [a, b, c] => rfl
  | [a, b, c, d] => rfl
  | a :: b :: c :: d :: e :: rest => rfl

/-! ### Images, headers and sources -/

/-- A 4x4 spatial transform matrix (opaque to this module). -/
abbrev Affine := List (List Rat)

/-- A NiBabel-style image header: its class name, its mapping-like fields,
the `get_zooms()` per-axis sizes, the data shape recorded by
`set_data_shape(...)`, whether `dict(header)` succeeds (MINC-style headers
reject it), and `get_best_affine()` when the header type has it. -/
structure Header where
  cls : String
  fields : List (String × Val)
  zooms : List Rat
  dataShape : List Nat
  snapshottable : Bool
  bestAffine : Option Affine
  deriving Repr, DecidableEq

/-- A decoded spatial image: class name, data array, header and affine. -/
structure Image where
  cls : String
  data : NDArray Rat
  hdr : Header
  affine : Affine

mutual
/-- A source argument accepted by the loaders: nothing, a filename, an
already-decoded image, a list of sources, or an unrecognized object. -/
inductive Source where
  | none
  | path (p : String)
  | img (im : Image)
  | listOf (l : SourceList)
  | other
/-- The elements of a list source. -/
inductive SourceList where
  | nil
  | cons (s : Source) (rest : SourceList)
end

/-- View a list source's elements as an ordinary list. -/
def SourceList.toList : SourceList → List Source
  | SourceList.nil => []
  | SourceList.cons s rest => s :: rest.toList

/-- Build a list source from an ordinary list. -/
def sourceListOf : List Source → SourceList
  | [] => SourceList.nil
  | s :: rest => SourceList.cons s (sourceListOf rest)

/-- The file system visible to `nibabel.load`. -/
abbrev FileSys := List (String × Image)

/-- The pieces `_img2data` extracts from an image, plus whether the
returned data array is the very NumPy object held by the image
(`_get_txyz_shaped` returns its argument unchanged for non-4D data, so a
later in-place shape assignment also mutates the image). -/
structure Img2dataOut where
  data : NDArray Rat
  hdr : Header
  img : Image
  aliased : Bool

/-- Translation of `_get_txyz_shaped` (mri.py lines 329-334): data arrives
as x,y,z[,t]; if there is a time axis (exactly 4 dimensions), roll it to
the front. -/
def _get_txyz_shaped {α : Type} (arr : NDArray α) : NDArray α :=
  if arr.shape.length = 4 then
    ⟨lastToFront arr.shape, fun idx => arr.get (frontToLast idx)⟩
  else arr

/-- Translation of `_get_xyzt_shaped` (lines 337-342): data arrives as
[t,]x,y,z; if there is a time axis, roll it to the back. -/
def _get_xyzt_shaped {α : Type} (arr : NDArray α) : NDArray α :=
  if arr.shape.length = 4 then
    ⟨frontToLast arr.shape, fun idx => arr.get (lastToFront idx)⟩
  else arr

/-- The pathological condition `_hdr2dict` repairs: both scale fields
stringify to "nan" (a missing field stringifies via the `''` default). -/
def sclNanBroken (kv : List (String × Val)) : Bool :=
  decide (((lookupKey kv "scl_slope").getD (Val.s "")).text = "nan") &&
  decide (((lookupKey kv "scl_inter").getD (Val.s "")).text = "nan")

/-- Translation of `_hdr2dict` (lines 34-48): copy the header fields into
a plain dict, repairing the known nan scl_slope/scl_inter corruption with
a warning, and record the header class name under `hdrtype`.  Header
types that reject `dict(hdr)` raise (caught by `strip_nibabel`). -/
def _hdr2dict (hdr : Header) : Except PyErr (List (String × Val) × List Warn) :=
  if hdr.snapshottable then
    let kv := hdr.fields
    let (kv, ws) :=
      if sclNanBroken kv then
        (setKey (setKey kv "scl_slope" (Val.q 1)) "scl_inter" (Val.q 0), [Warn.sclNan])
      else (kv, [])
    .ok (setKey kv "hdrtype" (Val.s hdr.cls), ws)
  else .error PyErr.typeError

/-- An image class object of the image library: its name and whether it
subclasses `nibabel.spatialimages.SpatialImage`. -/
structure ImgCls where
  name : String
  isSpatialImage : Bool
  deriving Repr, DecidableEq

/-- A class object reachable as an attribute of the `nibabel` module:
either an image class or a header class (a header class is modelled by
the default instance its zero-argument constructor returns). -/
inductive NibAttr where
  | imgCls (c : ImgCls)
  | hdrCls (h : Header)
  deriving Repr, DecidableEq

def nifti1ImgCls : ImgCls := ⟨"Nifti1Image", true⟩

def nifti2ImgCls : ImgCls := ⟨"Nifti2Image", true⟩

/-- Default `Nifti1Header()` instance. -/
def nifti1HdrDefault : Header :=
  { cls := "Nifti1Header", fields := [], zooms := [1, 1, 1, 1],
    dataShape := [], snapshottable := true, bestAffine := Option.none }

/-- Default `Nifti2Header()` instance. -/
def nifti2HdrDefault : Header :=
  { cls := "Nifti2Header", fields := [], zooms := [1, 1, 1, 1],
    dataShape := [], snapshottable := true, bestAffine := Option.none }

/-- Modelled from the spec: the external image library's module namespace
(§6; §9 "reconstructing a header by string class name against an external
library namespace"), restricted to the classes this development needs. -/
def nibabelNS : List (String × NibAttr) :=
  [("Nifti1Image", NibAttr.imgCls nifti1ImgCls),
   ("Nifti2Image", NibAttr.imgCls nifti2ImgCls),
   ("Nifti1Header", NibAttr.hdrCls nifti1HdrDefault),
   ("Nifti2Header", NibAttr.hdrCls nifti2HdrDefault)]

/-- Iteration `for k in kv: if k == 'hdrtype': continue; hdr[k] = kv[k]`
of `_dict2hdr` (lines 55-58) over the fields of a fresh header instance. -/
def setFieldsFrom (kv init : List (String × Val)) : List (String × Val) :=
  kv.foldl (fun fs p => if p.1 = "hdrtype" then fs else setKey fs p.1 p.2) init

/-- Translation of `_dict2hdr` (lines 51-59): construct an empty header of
the class named by `hdrtype` (via `getattr(nibabel, ...)()`) and set every
remaining field from the dict. -/
def _dict2hdr (kv : List (String × Val)) : Except PyErr Header := do
  let tname ←
    match lookupKey kv "hdrtype" with
    | some (Val.s s) => Except.ok s
    | some _ => Except.error PyErr.typeError
    | Option.none => Except.error PyErr.keyError
  let h0 ←
    match lookupKey nibabelNS tname with
    | some (NibAttr.hdrCls h0) => Except.ok h0
    | some (NibAttr.imgCls _) => Except.error PyErr.typeError
    | Option.none => Except.error PyErr.attributeError
  Except.ok { h0 with fields := setFieldsFrom kv h0.fields }

/-- Translation of the image branch of `_img2data` (lines 76-94): extract
(data, header, image), squeezing the AFNI 5D-with-singleton-4th-axis
anomaly to 4D (in-place `header.set_data_shape`, with a warning), then
roll the time axis first. -/
def imgPieces (im : Image) : Option Img2dataOut × List Warn :=
  if im.data.shape.length = 5 ∧ im.data.shape.getD 3 0 = 1 then
    let s := im.data.shape
    let newshape := [s.getD 0 0, s.getD 1 0, s.getD 2 0, s.getD 4 0]
    let hdr' := { im.hdr with dataShape := newshape }
    let data' := reshapeArr newshape im.data
    (some { data := _get_txyz_shaped data', hdr := hdr',
            img := { im with hdr := hdr' }, aliased := false },
     [Warn.afniSqueeze])
  else
    (some { data := _get_txyz_shaped im.data, hdr := im.hdr, img := im,
            aliased := decide (im.data.shape.length ≠ 4) },
     [])

/-- Translation of `_img2data` (lines 62-97): `None` for a missing source,
`nibabel.load` for a filename, pass-through for an image instance;
anything that is not a `SpatialImage` yields `None`. -/
def _img2data (fs : FileSys) (src : Source) :
    Except PyErr (Option Img2dataOut × List Warn) :=
  match src with
  | Source.none => .ok (Option.none, [])
  | Source.path p =>
      match lookupKey fs p with
      | some im => .ok (imgPieces im)
      | Option.none => .error PyErr.fileNotFound
  | Source.img im => .ok (imgPieces im)
  | Source.listOf _ => .ok (Option.none, [])
  | Source.other => .ok (Option.none, [])

/-- The `enforce_dim` shape calculation of `_load_anyimg` (lines 397-411):
prepend singleton dimensions when the rank is too small; strip leading
dimensions when too large, but only if they are all singleton, else raise
ValueError.  A `none` result means the shape is left untouched. -/
def enforce_shape (enforce_dim : Nat) (shape : List Nat) :
    Except PyErr (Option (List Nat)) :=
  let lshape := shape.length
  if lshape < enforce_dim then
    .ok (some (List.replicate (enforce_dim - lshape) 1 ++ shape))
  else if lshape > enforce_dim then
    let bogus_dims := lshape - enforce_dim
    if shape.take bogus_dims = List.replicate bogus_dims 1 then
      .ok (some (shape.drop bogus_dims))
    else .error PyErr.valueError
  else .ok Option.none

/-- The `imgdata.shape = new_shape` step of `_load_anyimg` (lines
397-418): reshape in place; when the data array aliases the image's own
array, the image is mutated too. -/
def applyEnforce (enf : Option Nat) (o : Img2dataOut) :
    Except PyErr (NDArray Rat × Header × Image) :=
  match enf with
  | Option.none => .ok (o.data, o.hdr, o.img)
  | some r => do
      let ns? ← enforce_shape r o.data.shape
      match ns? with
      | Option.none => .ok (o.data, o.hdr, o.img)
      | some ns =>
          let d' := reshapeArr ns o.data
          let i' := if o.aliased then { o.img with data := reshapeArr ns o.img.data }
                    else o.img
          .ok (d', o.hdr, i')

/-- Reflect the in-place mutation of an already-decoded image argument
back into the caller's source value. -/
def rebuildSrc : Source → Image → Source
  | Source.img _, i => Source.img i
  | s, _ => s

/-- One step of `np.vstack` element access: walk the stacked arrays by
offsets along the leading axis. -/
def vstackGet : List (NDArray Rat) → Nat → List Nat → Rat
  | [], _, _ => 0
  | a :: rest, j, idx =>
      if j < a.shape.headD 0 then a.get (j :: idx)
      else vstackGet rest (j - a.shape.headD 0) idx

/-- `np.vstack` over the per-volume arrays of a list source (line 388):
concatenate along the leading axis (all arrays here are at least 2-D with
equal trailing shape, checked just before). -/
def vstack (l : List (NDArray Rat)) : NDArray Rat :=
  ⟨(l.map (fun a => a.shape.headD 0)).sum ::
     (l.headD (⟨[], fun _ => 0⟩ : NDArray Rat)).shape.tail,
   fun idx => vstackGet l (idx.headD 0) idx.tail⟩

/-- Result triple of a successful load: data, header, representative
image. -/
abbrev LoadRes := NDArray Rat × Header × Image

mutual
/-- Worker for `_load_anyimg`: a non-empty list source is loaded entry by
entry and combined with `np.vstack`, anything else goes through
`_img2data`, then the `enforce_dim` shape tune-up is applied. -/
def loadAux (fs : FileSys) : Source → Bool → Option Nat →
    Except PyErr (Option LoadRes × Source × List Warn)
  | Source.listOf (SourceList.cons s rest), ensure, enforce_dim => do
      -- load from a list of given entries (same flags, recursively)
      let results ← loadList fs (SourceList.cons s rest) ensure enforce_dim
      -- __debug__ block: per-volume shapes besides the leading one must
      -- agree; subscripting a failed (None) load raises
      let datas ← results.mapM (fun r =>
        match r.1 with
        | some t => Except.ok t.1
        | Option.none => Except.error PyErr.typeError)
      let shapes := datas.map (fun d => d.shape.tail)
      if shapes.all (fun sh2 => decide (sh2 = shapes.headD [])) then do
        let imgdata := vstack datas
        let (imghdr, img) ←
          match results with
          | r :: _ =>
              (match r.1 with
               | some t => Except.ok (t.2.1, t.2.2)
               | Option.none => Except.error PyErr.typeError)
          | [] => Except.error PyErr.typeError
        let (d', h', i') ← applyEnforce enforce_dim
          { data := imgdata, hdr := imghdr, img := img, aliased := false }
        Except.ok (some (d', h', i'),
          Source.listOf (sourceListOf (results.map (fun r => r.2.1))),
          results.foldl (fun acc r => acc ++ r.2.2) [])
      else Except.error PyErr.valueError
  | srcv, ensure, enforce_dim => do
      -- try opening the beast; may yield none for unsupported arguments
      let (od, ws) ← _img2data fs srcv
      match od with
      | some o => do
          let (d', h', i') ← applyEnforce enforce_dim o
          Except.ok (some (d', h', i'), rebuildSrc srcv i', ws)
      | Option.none => Except.ok (Option.none, srcv, ws)
/-- Load every entry of a list source in order. -/
def loadList (fs : FileSys) : SourceList → Bool → Option Nat →
    Except PyErr (List (Option LoadRes × Source × List Warn))
  | SourceList.nil, _, _ => Except.ok []
  | SourceList.cons s rest, ensure, enforce_dim => do
      let r ← loadAux fs s ensure enforce_dim
      let rs ← loadList fs rest ensure enforce_dim
      Except.ok (r :: rs)
end

/-- Translation of `_load_anyimg` (lines 345-423).  NOTE: despite the
docstring in the source ("ensure : If True, throw ValueError exception if
cannot be loaded" / "Raises ValueError ... failed to load data and
ensure=True"), the body never consults `ensure`: a failed load returns
`None` regardless.  The returned `Source` is the (possibly mutated in
place) input source. -/
def _load_anyimg (fs : FileSys) (src : Source) (ensure : Bool)
    (enforce_dim : Option Nat) :
    Except PyErr (Option LoadRes × Source × List Warn) :=
  loadAux fs src ensure enforce_dim

/-! ### The dataset container and mapper (external collaborators) -/

/-- Modelled from the spec: the external spatial-flattening transform
(§6), attached to the table as `a.mapper`: a `FlattenMapper` over a
spatial shape, optionally composed with the static feature selection that
a masking slice appends (§4.4 step 6). -/
inductive Mapper where
  | flat (sh : List Nat)
  | flatSel (sh : List Nat) (sel : List Nat)

/-- Modelled from the spec: `forward1` of the flattening transform (§6) —
flatten one spatial volume into the feature axis (for a masked table,
keep only the selected features). -/
def mapperForward1 : Mapper → NDArray Rat → NDArray Rat
  | Mapper.flat sh, a =>
      ⟨[sh.prod], fun idx => a.get (unflattenIdx sh (idx.headD 0))⟩
  | Mapper.flatSel sh sel, a =>
      ⟨[sel.length], fun idx => a.get (unflattenIdx sh (sel.getD (idx.headD 0) 0))⟩

/-- Modelled from the spec: `reverse` of the flattening transform (§6) —
unflatten a (samples × features) batch back to spatial shape; features a
mask removed read back as zero. -/
def mapperReverse : Mapper → NDArray Rat → NDArray Rat
  | Mapper.flat sh, f =>
      ⟨f.shape.headD 0 :: sh, fun idx => f.get [idx.headD 0, flattenIdx sh idx.tail]⟩
  | Mapper.flatSel sh sel, f =>
      ⟨f.shape.headD 0 :: sh, fun idx =>
        let j := flattenIdx sh idx.tail
        if sel.contains j then f.get [idx.headD 0, sel.indexOf j] else 0⟩

/-- Modelled from the spec: `reverse1` of the flattening transform (§6) —
unflatten a single feature vector. -/
def mapperReverse1 : Mapper → NDArray Rat → NDArray Rat
  | Mapper.flat sh, f => ⟨sh, fun idx => f.get [flattenIdx sh idx]⟩
  | Mapper.flatSel sh sel, f =>
      ⟨sh, fun idx =>
        let j := flattenIdx sh idx
        if sel.contains j then f.get [sel.indexOf j] else 0⟩

/-- A per-sample attribute column. -/
inductive AttrVal where
  | vals (l : List Val)
  | nats (l : List Nat)
  | rats (l : List Rat)

/-- A per-feature attribute cell: a spatial index vector
(`voxel_indices`) or a numeric value (volumetric `add_fa` data). -/
inductive FaCell where
  | idxs (l : List Nat)
  | num (x : Rat)

/-- Storage for the prefixed dataset attributes (`<sprefix>_dim`,
`<sprefix>_eldim`). -/
inductive MiscVal where
  | dims (l : List Nat)
  | eldims (l : List Rat)

/-- The value stored in the table's `imgtype` attribute: a class name
string (new-style) or an actual class object (legacy datasets). -/
inductive ImgTypeVal where
  | name (s : String)
  | pyc (c : NibAttr)
  deriving Repr, DecidableEq

/-- The value stored in the table's `imghdr` attribute: a header instance
or its plain-dict snapshot. -/
inductive HdrVal where
  | hdr (h : Header)
  | dict (d : List (String × Val))
  deriving Repr, DecidableEq

/-- Modelled from the spec: the generic labeled-table container (§6) with
its three attribute namespaces; only the attributes this module touches
are carried explicitly. -/
structure Dataset where
  samples : NDArray Rat
  sa : List (String × AttrVal)
  fa : List (String × (Nat → FaCell))
  aMapper : Option Mapper
  aImgaffine : Option Affine
  aImgtype : Option ImgTypeVal
  aImghdr : Option HdrVal
  aMisc : List (String × MiscVal)

/-- Name of a class object (`cls.__name__`). -/
def NibAttr.clsName : NibAttr → String
  | NibAttr.imgCls c => c.name
  | NibAttr.hdrCls h => h.cls

/-- Translation of `strip_nibabel` (lines 426-483): in-place conversion of
NiBabel objects held by a dataset into portable values — class objects to
name strings, header instances to dict snapshots (deleting the attribute
when snapshotting raises), storing the header's best affine first. -/
def strip_nibabel (ds : Dataset) : Dataset × List Warn :=
  -- only str class name is stored
  let ds :=
    match ds.aImgtype with
    | some (ImgTypeVal.pyc c) => { ds with aImgtype := some (ImgTypeVal.name c.clsName) }
    | _ => ds
  match ds.aImghdr with
  | Option.none => (ds, [])
  | some hv =>
      -- new datasets store the affine directly; it may already have one,
      -- but the header might have a better idea
      let ds :=
        match hv with
        | HdrVal.hdr h =>
            (match h.bestAffine with
             | some aff => { ds with aImgaffine := some aff }
             | Option.none => ds)
        | HdrVal.dict _ => ds
      match hv with
      | HdrVal.dict _ => (ds, [])
      | HdrVal.hdr h =>
          match _hdr2dict h with
          | Except.ok (kv, ws) => ({ ds with aImghdr := some (HdrVal.dict kv) }, ws)
          | Except.error _ => ({ ds with aImghdr := Option.none }, [])

/-- Translation of `_get_voxdim` (lines 319-321): `hdr.get_zooms()[:-1]`. -/
def _get_voxdim (hdr : Header) : List Rat := hdr.zooms.dropLast

/-- Translation of `_get_dt` (lines 324-326): `hdr.get_zooms()[-1]`
(IndexError on an empty zoom tuple). -/
def _get_dt (hdr : Header) : Except PyErr Rat :=
  match hdr.zooms.getLast? with
  | some z => .ok z
  | Option.none => .error PyErr.indexError

/-- A targets/chunks argument: a scalar broadcast to all samples, or a
per-sample sequence. -/
inductive AttrSpec where
  | scalar (v : Val)
  | seq (l : List Val)

/-- Modelled from the spec: `_expand_attribute` (mvpa2.base.dataset, not
under src/) broadcasts a scalar to `n` copies and fails when a sequence's
length disagrees with `n` (§6, attribute-expansion helper). -/
def _expand_attribute (v : AttrSpec) (n : Nat) : Except PyErr (List Val) :=
  match v with
  | AttrSpec.scalar x => .ok (List.replicate n x)
  | AttrSpec.seq l => if l.length = n then .ok l else .error PyErr.valueError

/-- `ds.get_mapped(FlattenMapper(shape=imgdata.shape[1:]))` on the samples
array: flatten all non-leading axes into one feature axis, C-order. -/
def flattenSamples (sh : List Nat) (a : NDArray Rat) : NDArray Rat :=
  ⟨[a.shape.headD 0, sh.prod],
   fun idx => a.get (idx.headD 0 :: unflattenIdx sh (idx.getD 1 0))⟩

/-- Column selection `ds[:, flatmask != 0]` on the samples matrix. -/
def selectCols (a : NDArray Rat) (sel : List Nat) : NDArray Rat :=
  ⟨[a.shape.headD 0, sel.length],
   fun idx => a.get [idx.headD 0, sel.getD (idx.getD 1 0) 0]⟩

/-- Translation of `fmri_dataset` (lines 189-316).  Returns the dataset
together with the (possibly mutated in place) samples source, mask source
and add_fa sources, and the warnings emitted along the way. -/
def fmri_dataset (fs : FileSys) (samples : Source)
    (targets chunks : Option AttrSpec) (mask : Source)
    (spref tpref : Option String) (add_fa : List (String × Source)) :
    Except PyErr (Dataset × Source × Source × List (String × Source) × List Warn) := do
  -- load the samples
  let (r, samples', ws1) ← _load_anyimg fs samples true (some 4)
  let (imgdata, imghdr, img) ←
    match r with
    | some t => Except.ok t
    | Option.none => Except.error PyErr.typeError  -- unpacking None raises
  -- figure out what the mask is
  let (maskr, mask', ws2) ← _load_anyimg fs mask false Option.none
  let maskData : Option (NDArray Rat) := maskr.map (fun t => t.1)
  -- compile the samples attributes
  let n := imgdata.shape.headD 0
  let sa1 : List (String × AttrVal) ←
    match targets with
    | some t => do
        let l ← _expand_attribute t n
        Except.ok [("targets", AttrVal.vals l)]
    | Option.none => Except.ok []
  let sa2 : List (String × AttrVal) ←
    match chunks with
    | some c => do
        let l ← _expand_attribute c n
        Except.ok (sa1 ++ [("chunks", AttrVal.vals l)])
    | Option.none => Except.ok sa1
  -- create a dataset and flatten it
  let space := spref.map (fun sp => sp ++ "_indices")
  let sh := imgdata.shape.tail
  let ds1 : Dataset :=
    { samples := flattenSamples sh imgdata,
      sa := sa2,
      fa :=
        match space with
        | some nm => [(nm, fun j => FaCell.idxs (unflattenIdx sh j))]
        | Option.none => [],
      aMapper := some (Mapper.flat sh),
      aImgaffine := Option.none, aImgtype := Option.none,
      aImghdr := Option.none, aMisc := [] }
  -- now apply the mask if any
  let ds2 : Dataset :=
    match maskData with
    | Option.none => ds1
    | some m =>
        let fm := mapperForward1 (Mapper.flat sh) m
        let sel := (List.range sh.prod).filter (fun j => decide (¬ fm.get [j] = 0))
        { ds1 with
          samples := selectCols ds1.samples sel,
          fa := ds1.fa.map (fun p => (p.1, fun c => p.2 (sel.getD c 0))),
          aMapper := some (Mapper.flatSel sh sel) }
  -- load and store additional feature attributes
  let (ds3, add_fa', ws3) ← add_fa.foldlM
    (fun (acc : Dataset × List (String × Source) × List Warn) p => do
      let (dsAcc, srcAcc, wsAcc) := acc
      let (rv, src', wsv) ← _load_anyimg fs p.2 true Option.none
      let value ←
        match rv with
        | some t => Except.ok t.1
        | Option.none => Except.error PyErr.typeError  -- subscripting None
      let flat := mapperForward1 (dsAcc.aMapper.getD (Mapper.flat sh)) value
      Except.ok
        ({ dsAcc with fa := setKey dsAcc.fa p.1 (fun c => FaCell.num (flat.get [c])) },
         srcAcc ++ [(p.1, src')], wsAcc ++ wsv))
    (ds2, [], [])
  -- store interesting NIfTI props in a more portable way
  let ds4 : Dataset :=
    { ds3 with
      aImgaffine := some img.affine,
      aImgtype := some (ImgTypeVal.name img.cls),
      aImghdr := some (HdrVal.hdr imghdr) }
  let (ds5, ws4) := strip_nibabel ds4
  -- if there is a space assigned, store the extent of that space
  let ds6 : Dataset :=
    match spref with
    | some sp =>
        { ds5 with
          aMisc :=
            setKey (setKey ds5.aMisc (sp ++ "_dim") (MiscVal.dims sh))
              (sp ++ "_eldim") (MiscVal.eldims (_get_voxdim imghdr)) }
    | Option.none => ds5
  -- temporal attributes
  let ds7 : Dataset ←
    match tpref with
    | some tp => do
        let dt ← _get_dt imghdr
        let len := ds6.samples.shape.headD 0
        Except.ok
          { ds6 with
            sa :=
              setKey (setKey ds6.sa (tp ++ "_indices") (AttrVal.nats (List.range len)))
                (tp ++ "_coords")
                (AttrVal.rats ((List.range len).map (fun i => (i : Rat) * dt))) }
    | Option.none => Except.ok ds6
  Except.ok (ds7, samples', mask', add_fa', ws1 ++ ws2 ++ ws3 ++ ws4)

/-! ### The inverse mapper `map2nifti` -/

/-- The data argument of `map2nifti`: a raw array or another dataset. -/
inductive DataArg where
  | arrData (a : NDArray Rat)
  | dsData (d : Dataset)

/-- Mapping-like key containment `k in imghdr` on an `imghdr` value. -/
def hdrvHasKey (hv : HdrVal) (k : String) : Bool :=
  match hv with
  | HdrVal.hdr h => (lookupKey h.fields k).isSome
  | HdrVal.dict d => (lookupKey d k).isSome

/-- The mapping-like key/value pairs of an `imghdr` value. -/
def hdrvFields : HdrVal → List (String × Val)
  | HdrVal.hdr h => h.fields
  | HdrVal.dict d => d

/-- Item assignment `imghdr[k] = v` on an `imghdr` value. -/
def hdrvSet (hv : HdrVal) (k : String) (v : Val) : HdrVal :=
  match hv with
  | HdrVal.hdr h => HdrVal.hdr { h with fields := setKey h.fields k v }
  | HdrVal.dict d => HdrVal.dict (setKey d k v)

/-- `getattr(nibabel, v)`: raises TypeError when the attribute name is not
a string (a legacy class object was stored), AttributeError when the name
is unknown to the library namespace. -/
def pyGetattrNibabel (v : ImgTypeVal) : Except PyErr NibAttr :=
  match v with
  | ImgTypeVal.name s =>
      (match lookupKey nibabelNS s with
       | some c => .ok c
       | Option.none => .error PyErr.attributeError)
  | ImgTypeVal.pyc _ => .error PyErr.typeError

/-- The `imgtype` resolution step of `map2nifti` (lines 149-157): `try:
imgtype = getattr(nibabel, dataset.a.imgtype) except TypeError:` — only a
TypeError is absorbed (the stored value already being a class); any other
failure propagates to the caller. -/
def resolveImgtype (v : ImgTypeVal) : Except PyErr ImgTypeVal :=
  match pyGetattrNibabel v with
  | Except.ok c => .ok (ImgTypeVal.pyc c)
  | Except.error PyErr.typeError => .ok v
  | Except.error e => .error e

/-- All coordinate vectors valid for a shape, in C order. -/
def allIdx : List Nat → List (List Nat)
  | [] => [[]]
  | n :: ns => ((List.range n).map (fun i => (allIdx ns).map (fun is => i :: is))).flatten

/-- `dsarray.max()`: largest entry of an array. -/
def arrMax (a : NDArray Rat) : Rat :=
  match (allIdx a.shape).map a.get with
  | [] => 0
  | x :: xs => xs.foldl max x

/-- `dsarray.min()`: smallest entry of an array. -/
def arrMin (a : NDArray Rat) : Rat :=
  match (allIdx a.shape).map a.get with
  | [] => 0
  | x :: xs => xs.foldl min x

/-- `hasattr(imghdr, 'get_data_dtype')`: true of header instances (all
library header classes define it), false of plain dict snapshots. -/
def hdrvHasGetDataDtype : HdrVal → Bool
  | HdrVal.hdr _ => true
  | HdrVal.dict _ => false

/-- Default empty header attached when an image class is constructed
without an explicit header. -/
def emptyHeader : Header :=
  { cls := "", fields := [], zooms := [], dataShape := [],
    snapshottable := true, bestAffine := Option.none }

/-- `imgtype(_get_xyzt_shaped(dsarray), None, imghdr)` (line 181): wrap
the spatial-major array in a new image; the `None` affine pulls it from
the header. -/
def constructImage (c : ImgCls) (data : NDArray Rat) (hdr : Option Header) : Image :=
  { cls := c.name, data := data, hdr := hdr.getD emptyHeader,
    affine :=
      match hdr with
      | some h => h.bestAffine.getD [[1,0,0,0],[0,1,0,0],[0,0,1,0],[0,0,0,1]]
      | Option.none => [[1,0,0,0],[0,1,0,0],[0,0,1,0],[0,0,0,1]] }

/-- Translation of `map2nifti` (lines 100-186). -/
def map2nifti (dataset : Dataset) (dataArg : Option DataArg)
    (imghdrArg : Option HdrVal) (imgtypeArg : Option NibAttr) :
    Except PyErr Image := do
  let data : NDArray Rat :=
    match dataArg with
    | Option.none => dataset.samples
    | some (DataArg.arrData a) => a
    | some (DataArg.dsData d) => d.samples
  -- call the appropriate function to map single samples or multiples
  let mapper ←
    match dataset.aMapper with
    | some m => Except.ok m
    | Option.none => Except.error PyErr.attributeError
  let dsarray :=
    if data.shape.length > 1 then mapperReverse mapper data
    else mapperReverse1 mapper data
  -- resolve the header
  let imghdr0 : Option HdrVal :=
    match imghdrArg with
    | some hv => some hv
    | Option.none => dataset.aImghdr
  let imghdr1 : Option HdrVal ←
    match imghdr0 with
    | Option.none => Except.ok Option.none
    | some hv =>
        if hdrvHasKey hv "hdrtype" then do
          let h ← _dict2hdr (hdrvFields hv)
          Except.ok (some (HdrVal.hdr h))
        else Except.ok (some hv)  -- fall back and expect a header instance
  -- resolve the image type
  let imgtypeR : ImgTypeVal ←
    match imgtypeArg with
    | some c => Except.ok (ImgTypeVal.pyc c)
    | Option.none =>
        match dataset.aImgtype with
        | some v => resolveImgtype v
        | Option.none => Except.ok (ImgTypeVal.pyc (NibAttr.imgCls nifti1ImgCls))
  -- set meaningful range (best effort, silently skipped on failure)
  let imghdr2 : Option HdrVal :=
    match imghdr1 with
    | some hv =>
        if hdrvHasKey hv "cal_max" then
          some (hdrvSet (hdrvSet hv "cal_max" (Val.q (arrMax dsarray)))
            "cal_min" (Val.q (arrMin dsarray)))
        else some hv
    | Option.none => Option.none
  -- construct the image
  let isSp : Bool ←
    match imgtypeR with
    | ImgTypeVal.pyc (NibAttr.imgCls c) => Except.ok c.isSpatialImage
    | ImgTypeVal.pyc (NibAttr.hdrCls _) => Except.ok false
    | ImgTypeVal.name _ => Except.error PyErr.typeError  -- issubclass of a non-class
  let hdrOk : Bool :=
    match imghdr2 with
    | Option.none => true
    | some hv => hdrvHasGetDataDtype hv
  if isSp && hdrOk then
    match imgtypeR with
    | ImgTypeVal.pyc (NibAttr.imgCls c) =>
        Except.ok (constructImage c (_get_xyzt_shaped dsarray)
          (match imghdr2 with
           | some (HdrVal.hdr h) => some h
           | _ => Option.none))
    | _ => Except.error PyErr.valueError
  else Except.error PyErr.valueError

/-! ### Helper lemmas -/

theorem except_bind_ok {ε α β : Type} (x : α) (f : α → Except ε β) :
    (Except.ok x >>= f : Except ε β) = f x := rfl

theorem except_bind_err {ε α β : Type} (e : ε) (f : α → Except ε β) :
    (Except.error e >>= f : Except ε β) = Except.error e := rfl

/-- The two shape normalizations compose to the identity on any array. -/
theorem xyzt_txyz {α : Type} (a : NDArray α) :
    _get_xyzt_shaped (_get_txyz_shaped a) = a := by
  obtain ⟨s, g⟩ := a
  by_cases h4 : s.length = 4
  · simp only [_get_txyz_shaped, _get_xyzt_shaped, h4, length_lastToFront, if_true,
      frontToLast_lastToFront]
  · simp only [_get_txyz_shaped, _get_xyzt_shaped, h4, if_false]

/-! ### C4 -/

/-- C4: for every 3D or 4D array `a`, the forward shape normalization
(storage order to time-major) followed by the inverse normalization
(time-major back to storage order) returns `a` unchanged:
`_get_xyzt_shaped (_get_txyz_shaped a) = a`. -/
theorem shape_normalization_involutive (a : NDArray Rat)
    (h : a.shape.length = 3 ∨ a.shape.length = 4) :
    _get_xyzt_shaped (_get_txyz_shaped a) = a := xyzt_txyz a

/-- A concrete 4D array used by witnesses. -/
def arr4Example : NDArray Rat := ⟨[2, 3, 4, 5], fun idx => ((idx.sum : Nat) : Rat)⟩

/-- Witness for C4 at the concrete 4D array `arr4Example`. -/
theorem shape_normalization_involutive_witness :
    _get_xyzt_shaped (_get_txyz_shaped arr4Example) = arr4Example :=
  shape_normalization_involutive arr4Example (Or.inr rfl)

/-! ### C3 -/

/-- C3: dimensionality enforcement — an array with fewer dimensions than
the required rank gets singleton dimensions prepended up to that rank; an
array with more dimensions gets the extra leading dimensions stripped
exactly when they are all of length 1, and raises ValueError otherwise;
trailing dimensions are never stripped (any tune-up keeps the original
shape as a suffix). -/
theorem enforce_dim_spec (r : Nat) (s : List Nat) :
    (s.length < r →
       enforce_shape r s = Except.ok (some (List.replicate (r - s.length) 1 ++ s))) ∧
    (s.length = r → enforce_shape r s = Except.ok Option.none) ∧
    (r < s.length →
       (s.take (s.length - r) = List.replicate (s.length - r) 1 →
          enforce_shape r s = Except.ok (some (s.drop (s.length - r)))) ∧
       (s.take (s.length - r) ≠ List.replicate (s.length - r) 1 →
          enforce_shape r s = Except.error PyErr.valueError)) := by
  refine ⟨fun h => ?_, fun h => ?_, fun h => ⟨fun ht => ?_, fun ht => ?_⟩⟩
  · simp [enforce_shape, h]
  · simp [enforce_shape, h]
  · simp [enforce_shape, Nat.lt_asymm h, h, ht]
  · simp [enforce_shape, Nat.lt_asymm h, h, ht]

/-- Witness for C3: a 3D shape enforced to rank 4, a rank-5 shape with a
singleton leading axis, and a rank-5 shape with a non-singleton leading
axis. -/
theorem enforce_dim_spec_witness :
    enforce_shape 4 [2, 3, 4] = Except.ok (some [1, 2, 3, 4]) ∧
    enforce_shape 4 [1, 2, 3, 4, 5] = Except.ok (some [2, 3, 4, 5]) ∧
    enforce_shape 4 [2, 1, 1, 1, 1] = Except.error PyErr.valueError :=
  ⟨(enforce_dim_spec 4 [2, 3, 4]).1 (by decide),
   ((enforce_dim_spec 4 [1, 2, 3, 4, 5]).2.2 (by decide)).1 (by decide),
   ((enforce_dim_spec 4 [2, 1, 1, 1, 1]).2.2 (by decide)).2 (by decide)⟩

/-! ### C2 -/

/-- C2 (code bug): the source's own docstring promises that `ensure=True`
raises a ValueError when nothing can be loaded, yet `_load_anyimg` returns
`None` for a `None` source and for an unrecognized source even with
`ensure=True`; `fmri_dataset` consequently dies unpacking `None` with a
TypeError instead of the promised LoadError. -/
theorem load_anyimg_ensure_code_bug :
    _load_anyimg [] Source.none true (some 4) =
      Except.ok (Option.none, Source.none, []) ∧
    _load_anyimg [] Source.other true (some 4) =
      Except.ok (Option.none, Source.other, []) ∧
    fmri_dataset [] Source.none Option.none Option.none Source.none
      (some "voxel") (some "time") [] = Except.error PyErr.typeError :=
  ⟨rfl, rfl, rfl⟩

/-! ### C5 -/

/-- Concrete AFNI-style 5D image header (data shape (2,3,4,1,5)). -/
def hdr5Example : Header :=
  { cls := "Nifti1Header", fields := [], zooms := [1, 1, 1, 1, 1],
    dataShape := [2, 3, 4, 1, 5], snapshottable := true, bestAffine := Option.none }

/-- Concrete AFNI-style 5D image with data shape (2,3,4,1,5). -/
def im5Example : Image :=
  { cls := "Nifti1Image", data := ⟨[2, 3, 4, 1, 5], fun idx => ((idx.sum : Nat) : Rat)⟩,
    hdr := hdr5Example, affine := [[1,0,0,0],[0,1,0,0],[0,0,1,0],[0,0,0,1]] }

/-- Shape of the data array the Image Accessor hands back for a source
(empty when nothing is loaded). -/
def loadedShape (fs : FileSys) (src : Source) : List Nat :=
  match _load_anyimg fs src false Option.none with
  | Except.ok (some t, _, _) => t.1.shape
  | _ => []

/-- C5 counterexample: loading the (2,3,4,1,5) image `im5Example` through
the Image Accessor yields an array of shape (5,2,3,4) — the squeezed 4D
array additionally has its time axis rolled to the front — and not
(2,3,4,5) as the claim states. -/
theorem img2data_5d_shape_counterexample :
    loadedShape [] (Source.img im5Example) = [5, 2, 3, 4] ∧
    ¬ loadedShape [] (Source.img im5Example) = [2, 3, 4, 5] :=
  ⟨rfl, by decide⟩

/-- C5 amended: an image of shape (X,Y,Z,1,T) loaded through the Image
Accessor is squeezed to (X,Y,Z,T) — with a warning emitted and the
header's data shape set to (X,Y,Z,T) in place — and the squeezed array is
then normalized to time-major order, so the accessor returns an array of
shape (T,X,Y,Z): the C-order reshape of the input, rolled time-first. -/
theorem img2data_5d_squeeze_amended (fs : FileSys) (im : Image)
    (X Y Z T : Nat) (hs : im.data.shape = [X, Y, Z, 1, T]) :
    ∃ o, _img2data fs (Source.img im) = Except.ok (some o, [Warn.afniSqueeze]) ∧
      o.data.shape = [T, X, Y, Z] ∧
      o.hdr.dataShape = [X, Y, Z, T] ∧
      o.img.hdr.dataShape = [X, Y, Z, T] ∧
      o.data = _get_txyz_shaped (reshapeArr [X, Y, Z, T] im.data) := by
  refine ⟨{ data := _get_txyz_shaped (reshapeArr [X, Y, Z, T] im.data),
            hdr := { im.hdr with dataShape := [X, Y, Z, T] },
            img := { im with hdr := { im.hdr with dataShape := [X, Y, Z, T] } },
            aliased := false }, ?_, ?_, rfl, rfl, rfl⟩
  · simp [_img2data, imgPieces, hs]
  · simp [_get_txyz_shaped, reshapeArr, hs, lastToFront]

/-- Witness for the amended C5 at the concrete image `im5Example`. -/
theorem img2data_5d_squeeze_amended_witness :
    ∃ o, _img2data [] (Source.img im5Example) = Except.ok (some o, [Warn.afniSqueeze]) ∧
      o.data.shape = [5, 2, 3, 4] ∧
      o.hdr.dataShape = [2, 3, 4, 5] ∧
      o.img.hdr.dataShape = [2, 3, 4, 5] ∧
      o.data = _get_txyz_shaped (reshapeArr [2, 3, 4, 5] im5Example.data) :=
  img2data_5d_squeeze_amended [] im5Example 2 3 4 5 rfl

/-! ### C6 -/

/-- C6: encoding a header whose `scl_slope` and `scl_inter` fields both
stringify to "nan" resets them in the snapshot to 1.0 and 0.0 with a
warning, leaving every other header field unchanged (besides adding the
`hdrtype` class-name tag); when at most one of the two fields is "nan",
no field is altered. -/
theorem hdr2dict_scl_repair (h : Header) (hs : h.snapshottable = true) :
    (sclNanBroken h.fields = true →
       ∃ kv, _hdr2dict h = Except.ok (kv, [Warn.sclNan]) ∧
         lookupKey kv "scl_slope" = some (Val.q 1) ∧
         lookupKey kv "scl_inter" = some (Val.q 0) ∧
         lookupKey kv "hdrtype" = some (Val.s h.cls) ∧
         ∀ k, k ≠ "scl_slope" → k ≠ "scl_inter" → k ≠ "hdrtype" →
           lookupKey kv k = lookupKey h.fields k) ∧
    (sclNanBroken h.fields = false →
       ∃ kv, _hdr2dict h = Except.ok (kv, []) ∧
         lookupKey kv "hdrtype" = some (Val.s h.cls) ∧
         ∀ k, k ≠ "hdrtype" → lookupKey kv k = lookupKey h.fields k) := by
  constructor
  · intro hb
    refine ⟨setKey (setKey (setKey h.fields "scl_slope" (Val.q 1)) "scl_inter" (Val.q 0))
        "hdrtype" (Val.s h.cls), ?_, ?_, ?_, ?_, ?_⟩
    · simp [_hdr2dict, hs, hb]
    · rw [lookupKey_setKey_ne _ _ _ _ (by decide), lookupKey_setKey_ne _ _ _ _ (by decide),
        lookupKey_setKey_self]
    · rw [lookupKey_setKey_ne _ _ _ _ (by decide), lookupKey_setKey_self]
    · rw [lookupKey_setKey_self]
    · intro k h1 h2 h3
      rw [lookupKey_setKey_ne _ _ _ _ h3, lookupKey_setKey_ne _ _ _ _ h2,
        lookupKey_setKey_ne _ _ _ _ h1]
  · intro hb
    refine ⟨setKey h.fields "hdrtype" (Val.s h.cls), ?_, ?_, ?_⟩
    · simp [_hdr2dict, hs, hb]
    · rw [lookupKey_setKey_self]
    · intro k h3
      rw [lookupKey_setKey_ne _ _ _ _ h3]

/-- Concrete header with the broken textual-nan scale fields. -/
def hdrNanExample : Header :=
  { cls := "Nifti1Header",
    fields := [("scl_slope", Val.nan), ("scl_inter", Val.nan), ("descrip", Val.s "x")],
    zooms := [1, 1, 1, 2], dataShape := [], snapshottable := true,
    bestAffine := Option.none }

/-- Concrete header with healthy scale fields. -/
def hdrOkExample : Header :=
  { cls := "Nifti1Header",
    fields := [("scl_slope", Val.q 1), ("scl_inter", Val.q 0), ("descrip", Val.s "x")],
    zooms := [1, 1, 1, 2], dataShape := [], snapshottable := true,
    bestAffine := Option.none }

/-- Witness for C6 at the two concrete headers. -/
theorem hdr2dict_scl_repair_witness :
    (∃ kv, _hdr2dict hdrNanExample = Except.ok (kv, [Warn.sclNan]) ∧
       lookupKey kv "scl_slope" = some (Val.q 1) ∧
       lookupKey kv "scl_inter" = some (Val.q 0) ∧
       lookupKey kv "hdrtype" = some (Val.s hdrNanExample.cls) ∧
       ∀ k, k ≠ "scl_slope" → k ≠ "scl_inter" → k ≠ "hdrtype" →
         lookupKey kv k = lookupKey hdrNanExample.fields k) ∧
    (∃ kv, _hdr2dict hdrOkExample = Except.ok (kv, []) ∧
       lookupKey kv "hdrtype" = some (Val.s hdrOkExample.cls) ∧
       ∀ k, k ≠ "hdrtype" → lookupKey kv k = lookupKey hdrOkExample.fields k) :=
  ⟨(hdr2dict_scl_repair hdrNanExample rfl).1 (by decide),
   (hdr2dict_scl_repair hdrOkExample rfl).2 (by decide)⟩

/-! ### C8 -/

/-- A minimal dataset whose `imgtype` attribute names a class missing
from the image library namespace. -/
def dsBadImgtype : Dataset :=
  { samples := ⟨[1, 1], fun _ => 0⟩, sa := [], fa := [],
    aMapper := some (Mapper.flat [1]),
    aImgaffine := Option.none,
    aImgtype := some (ImgTypeVal.name "NoSuchImage"),
    aImghdr := Option.none, aMisc := [] }

/-- C8 counterexample: a name-resolution failure is not silently
absorbed — `map2nifti` on a table whose `imgtype` holds the unresolvable
name "NoSuchImage" escapes with an AttributeError (the `except` clause
only catches TypeError). -/
theorem map2nifti_imgtype_resolution_counterexample :
    map2nifti dsBadImgtype Option.none Option.none Option.none =
      Except.error PyErr.attributeError := rfl

/-- C8 amended: the `try/except TypeError` around
`getattr(nibabel, dataset.a.imgtype)` absorbs only the TypeError raised
when the stored value is already a class (that value is then used as is);
a string name that resolves is replaced by the resolved class, and a
string name unknown to the library namespace raises AttributeError, which
escapes the resolution step. -/
theorem imgtype_resolution_amended :
    (∀ c, resolveImgtype (ImgTypeVal.pyc c) = Except.ok (ImgTypeVal.pyc c)) ∧
    (∀ s c, lookupKey nibabelNS s = some c →
       resolveImgtype (ImgTypeVal.name s) = Except.ok (ImgTypeVal.pyc c)) ∧
    (∀ s, lookupKey nibabelNS s = Option.none →
       resolveImgtype (ImgTypeVal.name s) = Except.error PyErr.attributeError) := by
  refine ⟨fun c => rfl, fun s c h => ?_, fun s h => ?_⟩
  · simp [resolveImgtype, pyGetattrNibabel, h]
  · simp [resolveImgtype, pyGetattrNibabel, h]

/-- Witness for the amended C8 at concrete image-type values. -/
theorem imgtype_resolution_amended_witness :
    resolveImgtype (ImgTypeVal.pyc (NibAttr.imgCls nifti1ImgCls)) =
      Except.ok (ImgTypeVal.pyc (NibAttr.imgCls nifti1ImgCls)) ∧
    resolveImgtype (ImgTypeVal.name "Nifti2Image") =
      Except.ok (ImgTypeVal.pyc (NibAttr.imgCls nifti2ImgCls)) ∧
    resolveImgtype (ImgTypeVal.name "NoSuchImage") =
      Except.error PyErr.attributeError :=
  ⟨imgtype_resolution_amended.1 _,
   imgtype_resolution_amended.2.1 "Nifti2Image" _ rfl,
   imgtype_resolution_amended.2.2 "NoSuchImage" rfl⟩

/-! ### C10 -/

/-- C10: `strip_nibabel` is idempotent — running it a second time changes
nothing and emits no warnings: a string `imgtype` is left as is, an
absent `imghdr` makes it return immediately, and an `imghdr` that is
already a plain dict snapshot is left untouched. -/
theorem strip_nibabel_idempotent (ds : Dataset) :
    strip_nibabel (strip_nibabel ds).1 = ((strip_nibabel ds).1, []) := by
  rcases ds with ⟨smp, sa, fa, am, aff, it, ihv, misc⟩
  rcases it with _ | (s | c) <;>
    rcases ihv with _ | (h | d) <;>
      first
      | rfl
      | (rcases hb : h.bestAffine with _ | aff2 <;>
         rcases hd : _hdr2dict h with p | e <;>
         simp [strip_nibabel, hb, hd])

/-! ### Lemmas about `setFieldsFrom` and header snapshots -/

theorem setFieldsFrom_cons (k0 : String) (v0 : Val) (rest init : List (String × Val)) :
    setFieldsFrom ((k0, v0) :: rest) init =
      setFieldsFrom rest (if k0 = "hdrtype" then init else setKey init k0 v0) := rfl

theorem lookupKey_setFieldsFrom_skip (kv init : List (String × Val)) :
    lookupKey (setFieldsFrom kv init) "hdrtype" = lookupKey init "hdrtype" := by
  induction kv generalizing init with
  | nil => rfl
  | cons p rest ih =>
      obtain ⟨k0, v0⟩ := p
      rw [setFieldsFrom_cons]
      by_cases h0 : k0 = "hdrtype"
      · rw [if_pos h0, ih]
      · rw [if_neg h0, ih, lookupKey_setKey_ne _ _ _ _ (fun hh => h0 hh.symm)]

theorem lookupKey_setFieldsFrom_not_mem (kv : List (String × Val)) (k : String)
    (h : ∀ p ∈ kv, p.1 ≠ k) (init : List (String × Val)) :
    lookupKey (setFieldsFrom kv init) k = lookupKey init k := by
  induction kv generalizing init with
  | nil => rfl
  | cons p rest ih =>
      obtain ⟨k0, v0⟩ := p
      rw [setFieldsFrom_cons]
      have hk0 : k0 ≠ k := h (k0, v0) (by simp)
      have hrest : ∀ p ∈ rest, p.1 ≠ k := fun p hp => h p (by simp [hp])
      by_cases h0 : k0 = "hdrtype"
      · rw [if_pos h0, ih hrest]
      · rw [if_neg h0, ih hrest, lookupKey_setKey_ne _ _ _ _ (Ne.symm hk0)]

theorem lookupKey_setFieldsFrom_mem (kv : List (String × Val)) (k : String) (v : Val)
    (hv : lookupKey kv k = some v) (hnod : (kv.map Prod.fst).Nodup)
    (hk : k ≠ "hdrtype") (init : List (String × Val)) :
    lookupKey (setFieldsFrom kv init) k = some v := by
  induction kv generalizing init with
  | nil => simp [lookupKey] at hv
  | cons p rest ih =>
      obtain ⟨k0, v0⟩ := p
      rw [setFieldsFrom_cons]
      simp only [List.map_cons, List.nodup_cons] at hnod
      obtain ⟨hk0notin, hnodrest⟩ := hnod
      by_cases h0 : k0 = k
      · subst h0
        have hv' : v0 = v := by simpa [lookupKey] using hv
        have hrest : ∀ p ∈ rest, p.1 ≠ k0 := by
          intro p hp hpk
          exact hk0notin (hpk ▸ List.mem_map_of_mem Prod.fst hp)
        rw [if_neg hk, lookupKey_setFieldsFrom_not_mem rest k0 hrest,
          lookupKey_setKey_self, hv']
      · simp only [lookupKey, if_neg h0] at hv
        by_cases hh : k0 = "hdrtype"
        · rw [if_pos hh]; exact ih hv hnodrest _
        · rw [if_neg hh]; exact ih hv hnodrest _

theorem not_mem_keys_of_lookup_none {β : Type} (l : List (String × β)) (k : String)
    (h : lookupKey l k = none) : k ∉ l.map Prod.fst := by
  induction l with
  | nil => simp
  | cons p rest ih =>
      obtain ⟨k0, v0⟩ := p
      by_cases h0 : k0 = k
      · simp [lookupKey, h0] at h
      · simp only [lookupKey, if_neg h0] at h
        simp [Ne.symm h0, ih h]

theorem sclNanBroken_present (kv : List (String × Val)) (hb : sclNanBroken kv = true) :
    (lookupKey kv "scl_slope").isSome ∧ (lookupKey kv "scl_inter").isSome := by
  rcases h1 : lookupKey kv "scl_slope" with _ | v1 <;>
    rcases h2 : lookupKey kv "scl_inter" with _ | v2 <;>
      simp [sclNanBroken, h1, h2, Val.text] at hb ⊢

theorem nodup_append_key (ks : List String) (k : String) (hnod : ks.Nodup)
    (hk : k ∉ ks) : (ks ++ [k]).Nodup := by
  simp [List.nodup_append, hnod, hk]

/-! ### C7 -/

/-- C7: decoding the snapshot of a snapshottable header
(`_dict2hdr (_hdr2dict h)`) yields a header of the same class in which
every field originally present in `h` keeps its original value — except
the corrected pathological scale fields, which decode to 1.0 and 0.0 —
and the `hdrtype` tag itself is not set as a field of the reconstructed
header (its binding stays whatever the empty instance has). -/
theorem hdr_snapshot_roundtrip (h h0 : Header)
    (hs : h.snapshottable = true)
    (hns : lookupKey nibabelNS h.cls = some (NibAttr.hdrCls h0))
    (hcl : h0.cls = h.cls)
    (hnod : (h.fields.map Prod.fst).Nodup)
    (hht : lookupKey h.fields "hdrtype" = Option.none) :
    ∃ kv ws h', _hdr2dict h = Except.ok (kv, ws) ∧ _dict2hdr kv = Except.ok h' ∧
      h'.cls = h.cls ∧
      lookupKey h'.fields "hdrtype" = lookupKey h0.fields "hdrtype" ∧
      (∀ k v, lookupKey h.fields k = some v → k ≠ "scl_slope" → k ≠ "scl_inter" →
         lookupKey h'.fields k = some v) ∧
      (sclNanBroken h.fields = false →
         ∀ k v, lookupKey h.fields k = some v → lookupKey h'.fields k = some v) ∧
      (sclNanBroken h.fields = true →
         lookupKey h'.fields "scl_slope" = some (Val.q 1) ∧
         lookupKey h'.fields "scl_inter" = some (Val.q 0)) := by
  have hhtne : ∀ k (v : Val), lookupKey h.fields k = some v → k ≠ "hdrtype" := by
    intro k v hkv hk
    rw [hk, hht] at hkv
    exact Option.noConfusion hkv
  cases hb : sclNanBroken h.fields with
  | true =>
      have hsl := (sclNanBroken_present h.fields hb).1
      have hin := (sclNanBroken_present h.fields hb).2
      have hin2 : (lookupKey (setKey h.fields "scl_slope" (Val.q 1)) "scl_inter").isSome := by
        rw [lookupKey_setKey_ne _ _ _ _ (by decide)]; exact hin
      have hht0 : lookupKey
          (setKey (setKey h.fields "scl_slope" (Val.q 1)) "scl_inter" (Val.q 0))
          "hdrtype" = none := by
        rw [lookupKey_setKey_ne _ _ _ _ (by decide),
          lookupKey_setKey_ne _ _ _ _ (by decide)]
        exact hht
      have hnodkv : ((setKey (setKey (setKey h.fields "scl_slope" (Val.q 1))
          "scl_inter" (Val.q 0)) "hdrtype" (Val.s h.cls)).map Prod.fst).Nodup := by
        rw [keys_setKey_of_none _ _ _ hht0, keys_setKey_of_isSome _ _ _ hin2,
          keys_setKey_of_isSome _ _ _ hsl]
        exact nodup_append_key _ _ hnod (not_mem_keys_of_lookup_none _ _ hht)
      refine ⟨setKey (setKey (setKey h.fields "scl_slope" (Val.q 1)) "scl_inter" (Val.q 0))
          "hdrtype" (Val.s h.cls), [Warn.sclNan],
        { h0 with fields := (setFieldsFrom (setKey (setKey (setKey h.fields "scl_slope"
            (Val.q 1)) "scl_inter" (Val.q 0)) "hdrtype" (Val.s h.cls)) h0.fields) },
        ?_, ?_, hcl, ?_, ?_, ?_, ?_⟩
      · simp [_hdr2dict, hs, hb]
      · simp [_dict2hdr, lookupKey_setKey_self, hns, except_bind_ok]
      · exact lookupKey_setFieldsFrom_skip _ _
      · intro k v hkv hk1 hk2
        have hk3 := hhtne k v hkv
        refine lookupKey_setFieldsFrom_mem _ _ _ ?_ hnodkv hk3 _
        rw [lookupKey_setKey_ne _ _ _ _ hk3, lookupKey_setKey_ne _ _ _ _ hk2,
          lookupKey_setKey_ne _ _ _ _ hk1]
        exact hkv
      · intro hf
        exact absurd hf (by decide)
      · intro _
        constructor
        · refine lookupKey_setFieldsFrom_mem _ _ _ ?_ hnodkv (by decide) _
          rw [lookupKey_setKey_ne _ _ _ _ (by decide),
            lookupKey_setKey_ne _ _ _ _ (by decide), lookupKey_setKey_self]
        · refine lookupKey_setFieldsFrom_mem _ _ _ ?_ hnodkv (by decide) _
          rw [lookupKey_setKey_ne _ _ _ _ (by decide), lookupKey_setKey_self]
  | false =>
      have hnodkv : ((setKey h.fields "hdrtype" (Val.s h.cls)).map Prod.fst).Nodup := by
        rw [keys_setKey_of_none _ _ _ hht]
        exact nodup_append_key _ _ hnod (not_mem_keys_of_lookup_none _ _ hht)
      refine ⟨setKey h.fields "hdrtype" (Val.s h.cls), [],
        { h0 with fields := setFieldsFrom (setKey h.fields "hdrtype" (Val.s h.cls)) h0.fields },
        ?_, ?_, hcl, ?_, ?_, ?_, ?_⟩
      · simp [_hdr2dict, hs, hb]
      · simp [_dict2hdr, lookupKey_setKey_self, hns, except_bind_ok]
      · exact lookupKey_setFieldsFrom_skip _ _
      · intro k v hkv hk1 hk2
        have hk3 := hhtne k v hkv
        refine lookupKey_setFieldsFrom_mem _ _ _ ?_ hnodkv hk3 _
        rw [lookupKey_setKey_ne _ _ _ _ hk3]
        exact hkv
      · intro _ k v hkv
        have hk3 := hhtne k v hkv
        refine lookupKey_setFieldsFrom_mem _ _ _ ?_ hnodkv hk3 _
        rw [lookupKey_setKey_ne _ _ _ _ hk3]
        exact hkv
      · intro hf
        exact absurd hf (by decide)

/-- Witness for C7 at the concrete header `hdrOkExample` (whose class
resolves to `nifti1HdrDefault` in the library namespace). -/
theorem hdr_snapshot_roundtrip_witness :
    ∃ kv ws h', _hdr2dict hdrOkExample = Except.ok (kv, ws) ∧
      _dict2hdr kv = Except.ok h' ∧
      h'.cls = hdrOkExample.cls ∧
      lookupKey h'.fields "hdrtype" = lookupKey nifti1HdrDefault.fields "hdrtype" ∧
      (∀ k v, lookupKey hdrOkExample.fields k = some v → k ≠ "scl_slope" →
         k ≠ "scl_inter" → lookupKey h'.fields k = some v) ∧
      (sclNanBroken hdrOkExample.fields = false →
         ∀ k v, lookupKey hdrOkExample.fields k = some v →
           lookupKey h'.fields k = some v) ∧
      (sclNanBroken hdrOkExample.fields = true →
         lookupKey h'.fields "scl_slope" = some (Val.q 1) ∧
         lookupKey h'.fields "scl_inter" = some (Val.q 0)) :=
  hdr_snapshot_roundtrip hdrOkExample nifti1HdrDefault rfl rfl rfl (by decide) rfl

/-! ### Loader characterization lemmas -/

theorem load_anyimg_none (fs : FileSys) (ensure : Bool) (enf : Option Nat) :
    _load_anyimg fs Source.none ensure enf =
      Except.ok (Option.none, Source.none, []) := rfl

/-- Loading an already-decoded 4D image with rank 4 enforced: nothing is
squeezed, nothing is reshaped, the source comes back untouched. -/
theorem load_anyimg_img4 (fs : FileSys) (im : Image) (ensure : Bool)
    (h4 : im.data.shape.length = 4) :
    _load_anyimg fs (Source.img im) ensure (some 4) =
      Except.ok (some (_get_txyz_shaped im.data, im.hdr, im), Source.img im, []) := by
  have h5 : ¬ (im.data.shape.length = 5 ∧ im.data.shape.getD 3 0 = 1) := by
    rw [h4]; intro hc; exact absurd hc.1 (by decide)
  have hsh : (_get_txyz_shaped im.data).shape.length = 4 := by
    simp [_get_txyz_shaped, h4, length_lastToFront]
  simp [_load_anyimg, loadAux, _img2data, imgPieces, h5, h4, applyEnforce,
    enforce_shape, hsh, rebuildSrc, except_bind_ok]

/-- Loading an already-decoded, non-AFNI-5D image with no dimensionality
enforcement: the source comes back untouched. -/
theorem load_anyimg_img_noenf (fs : FileSys) (im : Image) (ensure : Bool)
    (h5 : ¬ (im.data.shape.length = 5 ∧ im.data.shape.getD 3 0 = 1)) :
    _load_anyimg fs (Source.img im) ensure Option.none =
      Except.ok (some (_get_txyz_shaped im.data, im.hdr, im), Source.img im, []) := by
  simp only [List.getD_eq_getElem?_getD] at h5
  simp [_load_anyimg, loadAux, _img2data, imgPieces, h5, applyEnforce, rebuildSrc,
    except_bind_ok]

/-! ### C9 -/

/-- Concrete header of a 3D single-volume image. -/
def hdr3Example : Header :=
  { cls := "Nifti1Header", fields := [("descrip", Val.s "t")], zooms := [1, 1, 1],
    dataShape := [2, 2, 2], snapshottable := true, bestAffine := Option.none }

/-- Concrete already-decoded 3D image (a single volume). -/
def im3Example : Image :=
  { cls := "Nifti1Image", data := ⟨[2, 2, 2], fun idx => ((idx.sum : Nat) : Rat)⟩,
    hdr := hdr3Example, affine := [[1,0,0,0],[0,1,0,0],[0,0,1,0],[0,0,0,1]] }

/-- Data shape of the image held by the samples source that
`fmri_dataset` hands back (empty when the call fails or the source was
not an image). -/
def fmriSamplesSrcShape (fs : FileSys) (samples : Source) : List Nat :=
  match fmri_dataset fs samples Option.none Option.none Source.none
      (some "voxel") (some "time") [] with
  | Except.ok (_, Source.img i, _, _, _) => i.data.shape
  | _ => []

/-- C9 counterexample: building a dataset from an already-decoded 3D
image mutates the caller's image in place — dimensionality enforcement
assigns a 4D shape to the image's own (aliased) data array — so after
the call the input image's data has shape (1,2,2,2), not its original
(2,2,2). -/
theorem fmri_dataset_side_effect_counterexample :
    fmriSamplesSrcShape [] (Source.img im3Example) = [1, 2, 2, 2] ∧
    im3Example.data.shape = [2, 2, 2] ∧
    ¬ ([1, 2, 2, 2] : List Nat) = [2, 2, 2] :=
  ⟨rfl, rfl, by decide⟩

theorem match_pair {α β γ : Type} (p : α × β) (f : α → β → γ) :
    (match p with | (a, b) => f a b) = f p.1 p.2 := rfl

theorem except_bind_pure {ε α β : Type} (x : α) (f : α → Except ε β) :
    ((pure x : Except ε α) >>= f) = f x := rfl

/-- On a successful build, the sources `fmri_dataset` hands back (the
possibly-mutated samples source, mask source and add_fa sources). -/
def fmriOkSources
    (r : Except PyErr (Dataset × Source × Source × List (String × Source) × List Warn)) :
    Option (Source × Source × List (String × Source)) :=
  match r with
  | Except.ok (_, s, m, fa, _) => some (s, m, fa)
  | Except.error _ => Option.none

/-- C9 amended: `fmri_dataset` can mutate its inputs through NumPy
aliasing in exactly two ways — the samples image's own data array is
reshaped in place when dimensionality enforcement changes its shape
(e.g. a 3D samples image becomes (1,)+shape), and a 5D AFNI-style
image's header gets its data shape rewritten in place.  Outside these
cases the inputs are returned unchanged: for an already-decoded 4D
samples image and a mask that is absent or a non-AFNI-5D decoded image
(and no add_fa sources), the build succeeds and every input source comes
back exactly as passed. -/
theorem fmri_dataset_frame_amended (fs : FileSys) (im : Image) (mask : Source)
    (h4 : im.data.shape.length = 4)
    (hm : mask = Source.none ∨
      ∃ m, mask = Source.img m ∧
        ¬ (m.data.shape.length = 5 ∧ m.data.shape.getD 3 0 = 1))
    (hz : im.hdr.zooms ≠ []) :
    fmriOkSources (fmri_dataset fs (Source.img im) Option.none Option.none mask
        (some "voxel") (some "time") []) =
      some (Source.img im, mask, []) := by
  obtain ⟨z, hz2⟩ : ∃ z, im.hdr.zooms.getLast? = some z :=
    Option.isSome_iff_exists.mp (List.getLast?_isSome.mpr hz)
  rcases hm with hm | ⟨m, hm, hm5⟩ <;> subst hm
  · simp only [fmri_dataset]
    rw [load_anyimg_img4 fs im true h4, load_anyimg_none]
    simp only [except_bind_ok, except_bind_pure, List.foldlM, match_pair, _get_dt, hz2,
      Option.map, fmriOkSources]
  · simp only [fmri_dataset]
    rw [load_anyimg_img4 fs im true h4, load_anyimg_img_noenf fs m false hm5]
    simp only [except_bind_ok, except_bind_pure, List.foldlM, match_pair, _get_dt, hz2,
      Option.map, fmriOkSources]

/-- Concrete 4D image header. -/
def hdr4Example : Header :=
  { cls := "Nifti1Header", fields := [("descrip", Val.s "t")], zooms := [1, 1, 1, 2],
    dataShape := [2, 2, 2, 2], snapshottable := true, bestAffine := Option.none }

/-- Concrete already-decoded 4D image. -/
def im4Example : Image :=
  { cls := "Nifti1Image", data := ⟨[2, 2, 2, 2], fun idx => ((idx.sum : Nat) : Rat)⟩,
    hdr := hdr4Example, affine := [[1,0,0,0],[0,1,0,0],[0,0,1,0],[0,0,0,1]] }

/-- Witness for the amended C9 at the concrete 4D image `im4Example`. -/
theorem fmri_dataset_frame_amended_witness :
    fmriOkSources (fmri_dataset [] (Source.img im4Example) Option.none Option.none
        Source.none (some "voxel") (some "time") []) =
      some (Source.img im4Example, Source.none, []) :=
  fmri_dataset_frame_amended [] im4Example Source.none rfl (Or.inl rfl) (by decide)

/-! ### C1 -/

/-- Core of the data round trip: flattening the time-major array through
the mapper, reversing it, and rolling back to storage order reproduces
the original 4D array element-wise. -/
theorem roundtrip_data (a : NDArray Rat) (h4 : a.shape.length = 4) :
    (_get_xyzt_shaped (mapperReverse (Mapper.flat ((_get_txyz_shaped a).shape.tail))
       (flattenSamples ((_get_txyz_shaped a).shape.tail) (_get_txyz_shaped a)))).elemEq
      a := by
  rcases a with ⟨s, g⟩
  match s, h4 with
  | [p, q, r, t], _ =>
    constructor
    · rfl
    · intro idx hvalid
      have hv : validIdx [p, q, r, t] idx = true := hvalid
      rcases idx with _ | ⟨x, _ | ⟨y, _ | ⟨z, _ | ⟨w, _ | ⟨u, rest⟩⟩⟩⟩⟩ <;>
        simp [validIdx] at hv
      obtain ⟨hx, hy, hz2, hw⟩ := hv
      have hv3 : validIdx [p, q, r] [x, y, z] = true := by
        simp [validIdx, hx, hy, hz2]
      have key : unflattenIdx [p, q, r] (flattenIdx [p, q, r] [x, y, z]) = [x, y, z] :=
        unflattenIdx_flattenIdx _ _ hv3
      show g (frontToLast (w :: unflattenIdx [p, q, r] (flattenIdx [p, q, r] [x, y, z]))) =
        g [x, y, z, w]
      rw [key]
      rfl

/-- The shape of analysis table that `fmri_dataset` builds from a single
decoded 4D image: flattened samples, the flatten mapper over the spatial
shape, and portable header/type attributes; the sample, feature and misc
attributes are parameters. -/
def flatDs (a : NDArray Rat) (hdr : Header) (icls : String)
    (sa : List (String × AttrVal)) (fa : List (String × (Nat → FaCell)))
    (aff : Option Affine) (misc : List (String × MiscVal)) : Dataset :=
  { samples := flattenSamples (_get_txyz_shaped a).shape.tail (_get_txyz_shaped a),
    sa := sa, fa := fa,
    aMapper := some (Mapper.flat (_get_txyz_shaped a).shape.tail),
    aImgaffine := aff,
    aImgtype := some (ImgTypeVal.name icls),
    aImghdr := some (HdrVal.dict (setKey hdr.fields "hdrtype" (Val.s hdr.cls))),
    aMisc := misc }

/-- `fmri_dataset` on a single decoded 4D image (no mask, no targets,
default prefixes): the exact table it returns, with the input sources
unchanged and no warnings. -/
theorem fmri_dataset_img4_eq (fs : FileSys) (im : Image) (z : Rat)
    (h4 : im.data.shape.length = 4)
    (hsnap : im.hdr.snapshottable = true)
    (hnan : sclNanBroken im.hdr.fields = false)
    (hz2 : im.hdr.zooms.getLast? = some z) :
    fmri_dataset fs (Source.img im) Option.none Option.none Source.none
      (some "voxel") (some "time") [] =
      Except.ok (flatDs im.data im.hdr im.cls
        (setKey (setKey [] ("time" ++ "_indices") (AttrVal.nats (List.range
            ((flattenSamples (_get_txyz_shaped im.data).shape.tail
              (_get_txyz_shaped im.data)).shape.headD 0))))
          ("time" ++ "_coords") (AttrVal.rats ((List.range
            ((flattenSamples (_get_txyz_shaped im.data).shape.tail
              (_get_txyz_shaped im.data)).shape.headD 0)).map (fun i => (i : Rat) * z))))
        [("voxel" ++ "_indices", fun j =>
            FaCell.idxs (unflattenIdx (_get_txyz_shaped im.data).shape.tail j))]
        (some (im.hdr.bestAffine.getD im.affine))
        (setKey (setKey [] ("voxel" ++ "_dim")
            (MiscVal.dims (_get_txyz_shaped im.data).shape.tail))
          ("voxel" ++ "_eldim") (MiscVal.eldims (_get_voxdim im.hdr))),
        Source.img im, Source.none, [], []) := by
  rcases hba : im.hdr.bestAffine with _ | aff
  all_goals simp only [fmri_dataset, flatDs]
  all_goals rw [load_anyimg_img4 fs im true h4, load_anyimg_none]
  all_goals simp only [except_bind_ok, except_bind_pure, List.foldlM, match_pair,
    Option.map, strip_nibabel, _hdr2dict, hsnap, hnan, _get_dt, hz2, hba, Option.getD,
    if_true, if_false, Bool.false_eq_true, List.nil_append, List.append_nil]

theorem flattenSamples_len (sh : List Nat) (a : NDArray Rat) :
    1 < (flattenSamples sh a).shape.length := by simp [flattenSamples]

/-- `map2nifti` with no explicit arguments on a table of the shape
`fmri_dataset` builds from a 4D image: the reconstruction succeeds, its
spatial data is element-wise the original array, and the reconstructed
header keeps every original field except the display-range fields
`cal_max`/`cal_min`, which are recomputed from the data. -/
theorem map2nifti_flatds (a : NDArray Rat) (hdr : Header) (icls : String) (c : ImgCls)
    (h0 : Header) (sa : List (String × AttrVal)) (fa : List (String × (Nat → FaCell)))
    (aff : Option Affine) (misc : List (String × MiscVal))
    (h4 : a.shape.length = 4)
    (hic : lookupKey nibabelNS icls = some (NibAttr.imgCls c))
    (hsp : c.isSpatialImage = true)
    (hhc : lookupKey nibabelNS hdr.cls = some (NibAttr.hdrCls h0))
    (hnod : (hdr.fields.map Prod.fst).Nodup)
    (hht : lookupKey hdr.fields "hdrtype" = Option.none) :
    match map2nifti (flatDs a hdr icls sa fa aff misc)
        Option.none Option.none Option.none with
    | Except.ok out =>
        out.data.elemEq a ∧ out.hdr.cls = h0.cls ∧
        (∀ k v, lookupKey hdr.fields k = some v → k ≠ "cal_max" → k ≠ "cal_min" →
          lookupKey out.hdr.fields k = some v)
    | Except.error _ => False := by
  have hnodkv : ((setKey hdr.fields "hdrtype" (Val.s hdr.cls)).map Prod.fst).Nodup := by
    rw [keys_setKey_of_none _ _ _ hht]
    exact nodup_append_key _ _ hnod (not_mem_keys_of_lookup_none _ _ hht)
  have hhtne : ∀ k (v : Val), lookupKey hdr.fields k = some v → k ≠ "hdrtype" := by
    intro k v hkv hk
    rw [hk, hht] at hkv
    exact Option.noConfusion hkv
  rcases hcal : lookupKey (setFieldsFrom (setKey hdr.fields "hdrtype" (Val.s hdr.cls))
      h0.fields) "cal_max" with _ | cv
  all_goals simp only [map2nifti, flatDs, except_bind_ok, except_bind_pure, hdrvHasKey,
    hdrvFields, hdrvSet, lookupKey_setKey_self, Option.isSome_some, _dict2hdr, hhc, hic,
    resolveImgtype, pyGetattrNibabel, hsp, hdrvHasGetDataDtype, hcal, constructImage,
    if_true, if_false, Bool.and_self, flattenSamples_len, gt_iff_lt, Option.getD,
    Option.isSome_none, Bool.false_eq_true]
  · refine ⟨roundtrip_data a h4, trivial, ?_⟩
    intro k v hkv hk1 hk2
    have hk3 := hhtne k v hkv
    refine lookupKey_setFieldsFrom_mem _ _ _ ?_ hnodkv hk3 _
    rw [lookupKey_setKey_ne _ _ _ _ hk3]
    exact hkv
  · refine ⟨roundtrip_data a h4, trivial, ?_⟩
    intro k v hkv hk1 hk2
    have hk3 := hhtne k v hkv
    rw [lookupKey_setKey_ne _ _ _ _ hk2, lookupKey_setKey_ne _ _ _ _ hk1]
    refine lookupKey_setFieldsFrom_mem _ _ _ ?_ hnodkv hk3 _
    rw [lookupKey_setKey_ne _ _ _ _ hk3]
    exact hkv

/-- C1: building the analysis table with `fmri_dataset` from a decoded 4D
image (array A with header H) and reconstructing an image with
`map2nifti` succeeds and yields spatial data element-wise equal to A; the
reconstructed header has H's class and its recoverable fields — all
fields except the display-range fields `cal_max`/`cal_min`, which
`map2nifti` deliberately recomputes from the data — equal H's fields. -/
theorem fmri_map2nifti_roundtrip (fs : FileSys) (im : Image) (c : ImgCls) (h0 : Header)
    (h4 : im.data.shape.length = 4)
    (hsnap : im.hdr.snapshottable = true)
    (hnan : sclNanBroken im.hdr.fields = false)
    (hz : im.hdr.zooms ≠ [])
    (hnod : (im.hdr.fields.map Prod.fst).Nodup)
    (hht : lookupKey im.hdr.fields "hdrtype" = Option.none)
    (hic : lookupKey nibabelNS im.cls = some (NibAttr.imgCls c))
    (hsp : c.isSpatialImage = true)
    (hhc : lookupKey nibabelNS im.hdr.cls = some (NibAttr.hdrCls h0))
    (hcl : h0.cls = im.hdr.cls) :
    ∃ ds s2 m2 fa2 ws out,
      fmri_dataset fs (Source.img im) Option.none Option.none Source.none
        (some "voxel") (some "time") [] = Except.ok (ds, s2, m2, fa2, ws) ∧
      map2nifti ds Option.none Option.none Option.none = Except.ok out ∧
      out.data.elemEq im.data ∧
      out.hdr.cls = im.hdr.cls ∧
      (∀ k v, lookupKey im.hdr.fields k = some v →
        k ≠ "cal_max" → k ≠ "cal_min" → lookupKey out.hdr.fields k = some v) := by
  obtain ⟨z, hz2⟩ : ∃ z, im.hdr.zooms.getLast? = some z :=
    Option.isSome_iff_exists.mp (List.getLast?_isSome.mpr hz)
  have hds : ∃ sa fa aff misc,
      fmri_dataset fs (Source.img im) Option.none Option.none Source.none
        (some "voxel") (some "time") [] =
        Except.ok (flatDs im.data im.hdr im.cls sa fa aff misc,
          Source.img im, Source.none, [], []) :=
    ⟨_, _, _, _, fmri_dataset_img4_eq fs im z h4 hsnap hnan hz2⟩
  obtain ⟨sa, fa, aff, misc, hds⟩ := hds
  have hlem := map2nifti_flatds im.data im.hdr im.cls c h0 sa fa aff misc
    h4 hic hsp hhc hnod hht
  rcases hx : map2nifti (flatDs im.data im.hdr im.cls sa fa aff misc)
      Option.none Option.none Option.none with e | out
  · rw [hx] at hlem
    exact hlem.elim
  · rw [hx] at hlem
    exact ⟨_, _, _, _, _, out, hds, hx, hlem.1, hlem.2.1.trans hcl, hlem.2.2⟩

/-- Witness for C1 at the concrete 4D image `im4Example` (whose image and
header classes resolve in the library namespace). -/
theorem fmri_map2nifti_roundtrip_witness :
    ∃ ds s2 m2 fa2 ws out,
      fmri_dataset [] (Source.img im4Example) Option.none Option.none Source.none
        (some "voxel") (some "time") [] = Except.ok (ds, s2, m2, fa2, ws) ∧
      map2nifti ds Option.none Option.none Option.none = Except.ok out ∧
      out.data.elemEq im4Example.data ∧
      out.hdr.cls = im4Example.hdr.cls ∧
      (∀ k v, lookupKey im4Example.hdr.fields k = some v →
        k ≠ "cal_max" → k ≠ "cal_min" → lookupKey out.hdr.fields k = some v) :=
  fmri_map2nifti_roundtrip [] im4Example nifti1ImgCls nifti1HdrDefault rfl rfl
    (by decide) (by decide) (by decide) rfl rfl rfl rfl rfl

end PyMVPA
